import Mathlib

/-!
Verification of the PostgreSQL → KùzuDB migration pipeline (`src/server.py`).

The development shallowly embeds the pipeline's pure logic:

* `infer_type` — the column-type mapper (server.py lines 40–45), over an
  inductive of the SQLAlchemy generic column-type classes the code tests with
  `isinstance`; the subclass facts encoded in `isInstanceOfInteger` /
  `isInstanceOfFloat` / `isInstanceOfDateTime` mirror SQLAlchemy's documented
  hierarchy (SmallInteger/BigInteger <: Integer; REAL/DOUBLE_PRECISION <:
  Float; Numeric i.e. NUMERIC/DECIMAL is *not* a Float subclass; TIMESTAMP/
  DATETIME <: DateTime; Date and Time are not DateTime subclasses).
* `format_val` — the value serializer (server.py lines 47–53), over an
  inductive of the Python runtime values it dispatches on, with CPython's
  `Decimal.__str__` (`decChars`), `date.isoformat` / `datetime.isoformat`,
  and `str.replace("'", "\\'")` (`escQuotes`) modelled faithfully.
* the node-load loop, the edge-load loop, and their composition
  (`nodeLoad`, `edgeLoad`, `runPipeline`), emitting the sequence of graph
  operations the loops send to `conn.execute`, with Python's fallible `[0]`
  list indexing modelled as an explicit error channel.
-/

/-! ## Type mapper (server.py lines 40–45) -/

/-- SQLAlchemy generic column-type classes relevant to `infer_type`'s
`isinstance` checks, as reflected from PostgreSQL. -/
inductive SqlType where
  | Integer
  | SmallInteger
  | BigInteger
  | Float
  | DoublePrecision
  | Real
  | Numeric
  | DateTime
  | TIMESTAMP
  | Date
  | Time
  | Text
  | VarChar
  | Boolean
  | Other
deriving DecidableEq

/-- `isinstance(col.type, Integer)` per SQLAlchemy's class hierarchy:
`SmallInteger` and `BigInteger` subclass `Integer`. -/
def isInstanceOfInteger : SqlType → Bool
  | .Integer => true
  | .SmallInteger => true
  | .BigInteger => true
  | _ => false

/-- `isinstance(col.type, Float)` per SQLAlchemy's class hierarchy:
`REAL` and `DOUBLE_PRECISION` subclass `Float`; `Numeric` (NUMERIC/DECIMAL)
does **not** — `Float` subclasses `Numeric`, not the other way round. -/
def isInstanceOfFloat : SqlType → Bool
  | .Float => true
  | .DoublePrecision => true
  | .Real => true
  | _ => false

/-- `isinstance(col.type, DateTime)` per SQLAlchemy's class hierarchy:
`TIMESTAMP` and `DATETIME` subclass `DateTime`; `Date` and `Time` do not. -/
def isInstanceOfDateTime : SqlType → Bool
  | .DateTime => true
  | .TIMESTAMP => true
  | _ => false

/-- server.py lines 40–45: `infer_type` maps a reflected column type to a
Kùzu primitive type name by three `isinstance` checks with a `STRING`
default. -/
def infer_type (t : SqlType) : String :=
  if isInstanceOfInteger t then "INT"
  else if isInstanceOfFloat t then "DOUBLE"
  else if isInstanceOfDateTime t then "TIMESTAMP"
  else "STRING"

/-! ## Decimal digits machinery -/

/-- Value of a big-endian digit list, `foldl (10*a + d)` as positional
notation reads it. -/
def digitsVal (ds : List Nat) : Nat := ds.foldl (fun a d => 10 * a + d) 0

/-- The character of a single decimal digit. -/
def digitChar (d : Nat) : Char := Char.ofNat (48 + d)

/-- Big-endian digit list rendered as characters. -/
def digitsToChars (ds : List Nat) : List Char := ds.map digitChar

/-- Digit-list extraction with explicit fuel so that the definition is
structurally recursive (and hence evaluates by kernel reduction). -/
def natDigitsAux : Nat → Nat → List Nat
  | 0, _ => []
  | fuel + 1, n => if n < 10 then [n] else natDigitsAux fuel (n / 10) ++ [n % 10]

/-- Big-endian digit list of a natural number (CPython renders integers this
way); `0` renders as `[0]`. -/
def natDigits (n : Nat) : List Nat := natDigitsAux (n + 1) n

/-- Decimal character rendering of a natural number. -/
def natToChars (n : Nat) : List Char := digitsToChars (natDigits n)

/-- Python `str(int)`: optional minus sign followed by the decimal digits. -/
def pyIntChars (n : Int) : List Char :=
  if n < 0 then '-' :: natToChars n.natAbs else natToChars n.natAbs

/-! ## CPython `decimal.Decimal` and its `__str__` (used by `format_val`
via `str(val)` on `Decimal` values) -/

/-- A finite CPython `Decimal`: sign flag, coefficient digit string
(big-endian, as CPython's `_int`), and exponent (CPython's `_exp`). -/
structure PyDecimal where
  sign : Bool
  digits : List Nat
  exp : Int
deriving DecidableEq

/-- Well-formed coefficient: nonempty and made of decimal digits
(as CPython's `_int` digit string always is). -/
def PyDecimal.wf (x : PyDecimal) : Prop :=
  x.digits ≠ [] ∧ ∀ d ∈ x.digits, d < 10

/-- The rational value a `PyDecimal` denotes: `±coefficient × 10^exp`. -/
def decVal (x : PyDecimal) : ℚ :=
  (cond x.sign (-1) 1) * (digitsVal x.digits : ℚ) * (10 : ℚ) ^ x.exp

/-- CPython `decimal.__str__`: `leftdigits = exp + len(coefficient)`. -/
def leftdigitsOf (x : PyDecimal) : Int := x.exp + x.digits.length

/-- CPython `decimal.__str__`: the dot position — plain notation
(`dotplace = leftdigits`) when `exp <= 0 and leftdigits > -6`, otherwise
scientific notation with one digit before the dot (`dotplace = 1`). -/
def dotplaceOf (x : PyDecimal) : Int :=
  if x.exp ≤ 0 ∧ leftdigitsOf x > -6 then leftdigitsOf x else 1

/-- CPython `decimal.__str__`: integer and fractional part of the rendered
coefficient, given the dot position. -/
def decBody (ds : List Nat) (dotplace : Int) : List Char :=
  if dotplace ≤ 0 then
    '0' :: '.' :: (List.replicate (-dotplace).toNat '0' ++ digitsToChars ds)
  else if dotplace ≥ (ds.length : Int) then
    digitsToChars ds ++ List.replicate (dotplace - ds.length).toNat '0'
  else
    digitsToChars (ds.take dotplace.toNat) ++ '.' :: digitsToChars (ds.drop dotplace.toNat)

/-- CPython `decimal.__str__`: the exponent marker `E%+d` of
`leftdigits - dotplace`, omitted when zero. -/
def decExpPart (delta : Int) : List Char :=
  if delta = 0 then []
  else 'E' :: (if 0 ≤ delta then '+' :: natToChars delta.toNat
               else '-' :: natToChars (-delta).toNat)

/-- CPython `decimal.__str__` on a finite decimal, as a character list. -/
def decChars (x : PyDecimal) : List Char :=
  (if x.sign then ['-'] else []) ++
    decBody x.digits (dotplaceOf x) ++ decExpPart (leftdigitsOf x - dotplaceOf x)

/-- `str(val)` for a `Decimal` value: the scientific-string form. -/
def decStr (x : PyDecimal) : String := ⟨decChars x⟩

/-! ## CPython `date` / `datetime` and `isoformat` -/

/-- A CPython `datetime.date`. -/
structure PyDate where
  year : Nat
  month : Nat
  day : Nat
deriving DecidableEq

/-- A CPython `datetime.datetime` (no timezone, as psycopg2 returns for
`timestamp without time zone`). -/
structure PyDateTime where
  year : Nat
  month : Nat
  day : Nat
  hour : Nat
  minute : Nat
  second : Nat
  microsecond : Nat
deriving DecidableEq

/-- Zero-padded decimal rendering, CPython's `"%0*d"`. -/
def padChars (width n : Nat) : List Char :=
  List.replicate (width - (natDigits n).length) '0' ++ natToChars n

/-- CPython `date.isoformat()`: `YYYY-MM-DD`. -/
def isoDateChars (d : PyDate) : List Char :=
  padChars 4 d.year ++ ('-' :: (padChars 2 d.month ++ ('-' :: padChars 2 d.day)))

/-- CPython `datetime.isoformat(sep)`: date, separator, `HH:MM:SS`, and a
`.%06d` microsecond part only when the microsecond is nonzero. -/
def isoDateTimeChars (sep : Char) (d : PyDateTime) : List Char :=
  isoDateChars ⟨d.year, d.month, d.day⟩ ++ (sep ::
    (padChars 2 d.hour ++ (':' :: (padChars 2 d.minute ++ (':' :: (padChars 2 d.second ++
      (if d.microsecond = 0 then [] else '.' :: padChars 6 d.microsecond)))))))

/-! ## Runtime values and the value serializer (server.py lines 47–53) -/

/-- The Python runtime values `format_val` dispatches on.  A `float` is
carried as the decimal text CPython's `str()` produces for it (the
serializer only ever forwards that text); all other payloads are structural. -/
inductive Value where
  | none
  | bool (b : Bool)
  | int (n : Int)
  | float (text : String)
  | decimal (d : PyDecimal)
  | date (d : PyDate)
  | datetime (d : PyDateTime)
  | str (s : String)
deriving DecidableEq

/-- `val is None`. -/
def is_none : Value → Bool
  | .none => true
  | _ => false

/-- `isinstance(val, bool)`. -/
def is_bool : Value → Bool
  | .bool _ => true
  | _ => false

/-- `isinstance(val, (int, float, Decimal))`; in CPython `bool` is a
subclass of `int`, so booleans satisfy this check too. -/
def is_number : Value → Bool
  | .bool _ => true
  | .int _ => true
  | .float _ => true
  | .decimal _ => true
  | _ => false

/-- `isinstance(val, (date, datetime))`; `datetime` subclasses `date`. -/
def is_date_or_datetime : Value → Bool
  | .date _ => true
  | .datetime _ => true
  | _ => false

/-- The boolean payload (only consulted under the `is_bool` guard). -/
def boolVal : Value → Bool
  | .bool b => b
  | _ => false

/-- CPython `str(val)` for each value shape. -/
def pyStrChars : Value → List Char
  | .none => "None".data
  | .bool b => (cond b "True" "False").data
  | .int n => pyIntChars n
  | .float t => t.data
  | .decimal d => decChars d
  | .date d => isoDateChars d
  | .datetime d => isoDateTimeChars ' ' d
  | .str s => s.data

/-- `val.isoformat()` in the date/datetime branch of `format_val`
(`datetime.isoformat()` uses the `'T'` separator). -/
def isoformatChars : Value → List Char
  | .date d => isoDateChars d
  | .datetime d => isoDateTimeChars 'T' d
  | _ => []

/-- `str(val).replace("'", "\\'")`: a single pass that puts a backslash in
front of every single quote (the pattern is one character, so per-character
replacement coincides with CPython's `str.replace`). -/
def escQuotes : List Char → List Char
  | [] => []
  | c :: rest => if c = '\'' then '\\' :: '\'' :: escQuotes rest else c :: escQuotes rest

/-- server.py lines 47–53: `format_val` as the chain of `isinstance`
checks the source performs, producing the literal's characters. -/
def formatValChars (v : Value) : List Char :=
  if is_none v then "null".data
  else if is_bool v then (cond (boolVal v) "true" "false").data
  else if is_number v then pyStrChars v
  else if is_date_or_datetime v then '\'' :: (isoformatChars v ++ ['\''])
  else '\'' :: (escQuotes (pyStrChars v) ++ ['\''])

/-- server.py lines 47–53: `format_val`. -/
def format_val (v : Value) : String := ⟨formatValChars v⟩

/-! ## A decimal-literal reader, to state the round-trip property of the
serialized numeric text -/

/-- Read a maximal run of decimal digit characters, returning their values
and the unconsumed remainder. -/
def readDigits : List Char → List Nat × List Char
  | [] => ([], [])
  | c :: cs =>
    if c.isDigit then
      let p := readDigits cs
      ((c.toNat - 48) :: p.1, p.2)
    else ([], c :: cs)

/-- Read an optional leading minus sign. -/
def readSign : List Char → Bool × List Char
  | [] => (false, [])
  | c :: cs => if c = '-' then (true, cs) else (false, c :: cs)

/-- Read an optional leading sign, `+` or `-`. -/
def readExpSign : List Char → Bool × List Char
  | [] => (false, [])
  | c :: cs =>
    if c = '-' then (true, cs)
    else if c = '+' then (false, cs) else (false, c :: cs)

/-- Read an optional `.`-prefixed fraction digit run. -/
def readFrac : List Char → List Nat × List Char
  | [] => ([], [])
  | c :: cs => if c = '.' then readDigits cs else ([], c :: cs)

/-- Read an optional `E`-prefixed signed exponent; `none` on a dangling
exponent marker. -/
def readExp : List Char → Option (Int × List Char)
  | [] => some (0, [])
  | c :: cs =>
    if c = 'E' then
      let s := readExpSign cs
      let p := readDigits s.2
      if p.1.isEmpty then none
      else some ((if s.1 then -(digitsVal p.1 : Int) else (digitsVal p.1 : Int)), p.2)
    else some (0, c :: cs)

/-- Value of an unsigned decimal literal `digits[.digits][E[±]digits]`;
`none` if the text does not have that shape or has trailing characters. -/
def parseUnsigned (cs : List Char) : Option ℚ :=
  let ip := readDigits cs
  if ip.1.isEmpty then none
  else
    let fp := readFrac ip.2
    match readExp fp.2 with
    | Option.none => none
    | Option.some (e, rest) =>
      if rest.isEmpty then
        some ((digitsVal (ip.1 ++ fp.1) : ℚ) * (10 : ℚ) ^ (e - (fp.1.length : Int)))
      else none

/-- Value of a decimal literal with an optional leading minus sign. -/
def parseNumber (cs : List Char) : Option ℚ :=
  match cs with
  | [] => none
  | c :: cs' =>
    if c = '-' then (parseUnsigned cs').map (fun q => -q)
    else parseUnsigned (c :: cs')

/-- Value of a decimal-literal string. -/
def parseNumStr (s : String) : Option ℚ := parseNumber s.data

/-! ## Reflected schema, graph operations, and the two load loops
(server.py lines 55–114) -/

/-- One entry of `inspector.get_foreign_keys(name, schema=schema)`:
the referred (parent) table plus the constrained and referred column-name
lists, which server.py indexes at `[0]`. -/
structure FKInfo where
  referred_table : String
  constrained_columns : List String
  referred_columns : List String
deriving DecidableEq

/-- A reflected column: name, declared type, and primary-key membership. -/
structure Column where
  name : String
  type : SqlType
  primary_key : Bool
deriving DecidableEq

/-- A reflected table together with the data the run fetches from it:
`rows` is the result of `session.execute(select(tbl)).fetchall()`, each row
holding one value per column in column order. -/
structure Table where
  name : String
  columns : List Column
  rows : List (List Value)
  foreign_keys : List FKInfo
deriving DecidableEq

/-- `[c.name for c in tbl.columns if c.primary_key]`. -/
def pk_cols (t : Table) : List String :=
  (t.columns.filter (fun c => c.primary_key)).map (fun c => c.name)

/-- Position of a column name in the table's column order (`tbl.columns[k]`
and `tbl.c[k]` key lookup). -/
def colIndex (t : Table) (cname : String) : Option Nat :=
  (t.columns.map (fun c => c.name)).indexOf? cname

/-- The graph-store operations the run issues through `conn.execute`, with
the payloads the source interpolates into each statement. -/
inductive Op where
  | createNodeTable (name : String) (defs : List String)
  | createNode (label : String) (props : List (String × String))
  | createRelTable (name src dst : String)
  | createRel (parentLabel childLabel parentPk childPk parentVal childVal edge : String)
deriving DecidableEq

/-- server.py lines 66–69: one column definition of the node-table DDL. -/
def col_def (c : Column) : String :=
  c.name ++ " " ++ infer_type c.type ++ (if c.primary_key then " PRIMARY KEY" else "")

/-- server.py line 61: the skip warning printed for a table whose
primary-key column count is not one. -/
def skipWarning (t : Table) : String :=
  "Skipping " ++ t.name ++ ": primary key count = " ++ toString (pk_cols t).length

/-- server.py lines 57–81: the node-load loop body for one table — skip
with a warning unless exactly one primary-key column, otherwise one
`CREATE NODE TABLE` followed by one `CREATE` per fetched row whose
properties pair the column names with the serialized row values in column
order (`zip(tbl.columns.keys(), row)`). -/
def nodeLoadTable (t : Table) : List Op × List String :=
  if (pk_cols t).length ≠ 1 then ([], [skipWarning t])
  else
    (Op.createNodeTable t.name (t.columns.map col_def) ::
      t.rows.map (fun row =>
        Op.createNode t.name
          (List.zip (t.columns.map (fun c => c.name)) (row.map format_val))), [])

/-- server.py lines 57–81: the node-load loop over all reflected tables,
returning the operations issued and the warnings recorded, in order. -/
def nodeLoad : List Table → List Op × List String
  | [] => ([], [])
  | t :: rest =>
    let r := nodeLoadTable t
    let more := nodeLoad rest
    (r.1 ++ more.1, r.2 ++ more.2)

/-- server.py line 96: `session.execute(select(fk_col, tbl.c[child_pk]))`
on the child table — one (foreign-key value, child-primary-key value) pair
per child row, read positionally from the row (rows are aligned to the
table's column order). -/
def fetch_pairs (t : Table) (fkIdx pkIdx : Nat) : List (Value × Value) :=
  t.rows.map (fun row => (row.getD fkIdx Value.none, row.getD pkIdx Value.none))

/-- CPython's message for an out-of-range `[0]` on an empty list. -/
def indexError : String := "IndexError: list index out of range"

/-- server.py lines 90–113: the edge-load loop body for one foreign key of
table `t`.  Python's fallible `[0]` indexing and `tbl.columns[...]` key
lookup are modelled as `Except` errors; otherwise the body fetches the
pairs, skips entirely when they are empty (line 97), and else issues one
`CREATE REL TABLE IF NOT EXISTS {parent}_{child}_edge (FROM parent TO
child)` followed by one `MATCH … CREATE` per pair whose `WHERE` clause
compares the parent's primary-key column with the serialized foreign-key
value and the child's primary-key column with the serialized child
primary-key value. -/
def edgeLoadFK (t : Table) (fk : FKInfo) : Except String (List Op) :=
  match fk.constrained_columns with
  | [] => .error indexError
  | fkColName :: _ =>
    match colIndex t fkColName with
    | Option.none => .error ("KeyError: " ++ fkColName)
    | Option.some fkIdx =>
      match fk.referred_columns with
      | [] => .error indexError
      | parent_pk :: _ =>
        match pk_cols t with
        | [] => .error indexError
        | child_pk :: _ =>
          match colIndex t child_pk with
          | Option.none => .error ("KeyError: " ++ child_pk)
          | Option.some pkIdx =>
            let pairs := fetch_pairs t fkIdx pkIdx
            if pairs.isEmpty then .ok []
            else
              let edge := fk.referred_table ++ "_" ++ t.name ++ "_edge"
              .ok (Op.createRelTable edge fk.referred_table t.name ::
                pairs.map (fun p =>
                  Op.createRel fk.referred_table t.name parent_pk child_pk
                    (format_val p.1) (format_val p.2) edge))

/-- The inner `for fk in inspector.get_foreign_keys(...)` loop: operations
issued so far and the first uncaught error, if any (an exception stops the
run, so later foreign keys are not reached). -/
def edgeLoadFKs (t : Table) : List FKInfo → List Op × Option String
  | [] => ([], Option.none)
  | fk :: rest =>
    match edgeLoadFK t fk with
    | .error e => ([], some e)
    | .ok ops =>
      let more := edgeLoadFKs t rest
      (ops ++ more.1, more.2)

/-- server.py lines 86–114: the edge-load loop body for one table.  Line 89
evaluates `[c.name for c in tbl.columns if c.primary_key][0]` before the
foreign-key loop, which raises `IndexError` on a table with no primary-key
column — for every reflected table, qualifying or not. -/
def edgeLoadTable (t : Table) : List Op × Option String :=
  match pk_cols t with
  | [] => ([], some indexError)
  | _ :: _ => edgeLoadFKs t t.foreign_keys

/-- server.py lines 86–114: the edge-load loop over all reflected tables;
an uncaught exception aborts the remaining tables. -/
def edgeLoad : List Table → List Op × Option String
  | [] => ([], Option.none)
  | t :: rest =>
    match edgeLoadTable t with
    | (ops, some e) => (ops, some e)
    | (ops, Option.none) =>
      let more := edgeLoad rest
      (ops ++ more.1, more.2)

/-- server.py lines 55–114: the full load — the node loop over all tables,
then the edge loop over all tables.  Returns the operation sequence issued
to the graph store, the recorded skip warnings, and the uncaught error that
aborted the run, if any. -/
def runPipeline (ts : List Table) : List Op × List String × Option String :=
  let n := nodeLoad ts
  let e := edgeLoad ts
  (n.1 ++ e.1, n.2, e.2)

/-! ## Reader lemmas -/

/-- The first character, if any, is not a digit. -/
def headNotDigit : List Char → Prop
  | [] => True
  | c :: _ => c.isDigit = false

/-! ## Syntactic well-formedness of serialized literals -/

/-- Scan the characters after an opening single quote under the target query
language's backslash-escape convention: a backslash consumes the next
character, an unescaped single quote closes the literal.  Returns `true`
exactly when the literal closes at the very end of the text (no dangling
text after the close, no unterminated body, no dangling escape). -/
def scanBody : List Char → Bool
  | [] => false
  | [c] => c == '\''
  | c :: c2 :: rest =>
    if c = '\\' then scanBody rest
    else if c = '\'' then false
    else scanBody (c2 :: rest)

/-- A serialized value is a syntactically closed literal: either a quoted
literal that closes exactly at its end, or an unquoted literal containing no
single-quote character at all. -/
def isClosedLiteral : List Char → Bool
  | [] => true
  | c :: rest =>
    if c = '\'' then scanBody rest
    else (c :: rest).all (fun x => !(x == '\''))

/-- Every single quote in the text is immediately preceded by a backslash
(the first argument carries the character before the current position). -/
def quotesEscaped : Option Char → List Char → Bool
  | _, [] => true
  | prev, c :: rest =>
    if c = '\'' then (prev == some '\\') && quotesEscaped (some c) rest
    else quotesEscaped (some c) rest

/-- No character of the list is a single quote or a backslash. -/
def SafeChars (cs : List Char) : Prop := ∀ c ∈ cs, c ≠ '\'' ∧ c ≠ '\\'

/-! ## Auxiliary predicates on values and operations -/

/-- Value shapes whose CPython string form is free of the two characters the
single-pass escape cannot protect: the raw float text and the string payload
must be backslash-free (floats also quote-free, as CPython float `repr`
always is), and a decimal's coefficient must be digit-valued (as CPython's
always is). -/
def safeValue : Value → Bool
  | .float t => t.data.all (fun c => !(c == '\'') && !(c == '\\'))
  | .decimal x => x.digits.all (fun d => d < 10)
  | .str s => s.data.all (fun c => !(c == '\\'))
  | _ => true

/-- Operations issued by the node-load loop. -/
def isNodeOp : Op → Bool
  | .createNodeTable _ _ => true
  | .createNode _ _ => true
  | _ => false

/-- Operations issued by the edge-load loop. -/
def isEdgeOp : Op → Bool
  | .createRelTable _ _ _ => true
  | .createRel _ _ _ _ _ _ _ => true
  | _ => false

/-- The operation creates a node table with the given name. -/
def createsNodeTable (name : String) : Op → Bool
  | .createNodeTable n _ => n == name
  | _ => false

/-- The operation creates a relationship table whose source (FROM) node
table is the given parent. -/
def relTableFromParent (parent : String) : Op → Bool
  | .createRelTable _ src _ => src == parent
  | _ => false

example : decStr ⟨false, [1], 2⟩ = "1E+2" := by decide

example : decStr ⟨false, [1, 9, 9, 9], -2⟩ = "19.99" := by decide

example : decStr ⟨true, [1, 2, 3], -5⟩ = "-0.00123" := by decide

example : decStr ⟨false, [1, 0, 0], -2⟩ = "1.00" := by decide

example : decStr ⟨false, [5], -9⟩ = "5E-9" := by decide

example : String.mk (isoDateChars ⟨2020, 1, 1⟩) = "2020-01-01" := by decide

example : format_val .none = "null" := by decide

example : format_val (.bool true) = "true" := by decide

example : format_val (.int (-7)) = "-7" := by decide

example : format_val (.decimal ⟨false, [1, 9, 9, 9], -2⟩) = "19.99" := by decide

example : format_val (.date ⟨2020, 1, 1⟩) = "'2020-01-01'" := by decide

example : format_val (.str "O'Brien") = "'O\\'Brien'" := by decide

example : readDigits "19.99".data = ([1, 9], ['.', '9', '9']) := by decide

example : readFrac ['.', '9', '9'] = ([9, 9], []) := by decide

example : readExp "E+2".data = some (2, []) := by decide

example : readExp "E-9".data = some (-9, []) := by decide

example :
    runPipeline [
      ⟨"customers",
        [⟨"id", .Integer, true⟩, ⟨"name", .VarChar, false⟩, ⟨"joined", .Date, false⟩],
        [[.int 1, .str "Alice", .date ⟨2020, 1, 1⟩],
         [.int 2, .str "O'Brien", .date ⟨2021, 6, 15⟩]], []⟩,
      ⟨"orders",
        [⟨"id", .Integer, true⟩, ⟨"customer_id", .Integer, false⟩, ⟨"total", .Numeric, false⟩],
        [[.int 1, .int 1, .decimal ⟨false, [1, 9, 9, 9], -2⟩]],
        [⟨"customers", ["customer_id"], ["id"]⟩]⟩] =
    ([.createNodeTable "customers" ["id INT PRIMARY KEY", "name STRING", "joined STRING"],
      .createNode "customers" [("id", "1"), ("name", "'Alice'"), ("joined", "'2020-01-01'")],
      .createNode "customers" [("id", "2"), ("name", "'O\\'Brien'"), ("joined", "'2021-06-15'")],
      .createNodeTable "orders" ["id INT PRIMARY KEY", "customer_id INT", "total STRING"],
      .createNode "orders" [("id", "1"), ("customer_id", "1"), ("total", "19.99")],
      .createRelTable "customers_orders_edge" "customers" "orders",
      .createRel "customers" "orders" "id" "id" "1" "1" "customers_orders_edge"],
     [], Option.none) := by decide

/-! ## Digit lemmas -/

lemma digitChar_isDigit {d : Nat} (h : d < 10) : (digitChar d).isDigit = true := by
  interval_cases d <;> decide

lemma digitChar_toNat {d : Nat} (h : d < 10) : (digitChar d).toNat = 48 + d := by
  interval_cases d <;> decide

lemma digitChar_ne_dash {d : Nat} (h : d < 10) : digitChar d ≠ '-' := by
  interval_cases d <;> decide

lemma digitChar_ne_quote {d : Nat} (h : d < 10) : digitChar d ≠ '\'' := by
  interval_cases d <;> decide

lemma digitChar_ne_backslash {d : Nat} (h : d < 10) : digitChar d ≠ '\\' := by
  interval_cases d <;> decide

lemma digitChar_zero : digitChar 0 = '0' := by decide

lemma foldl_digitsVal (init : Nat) (ds : List Nat) :
    ds.foldl (fun a d => 10 * a + d) init = init * 10 ^ ds.length + digitsVal ds := by
  induction ds generalizing init with
  | nil => simp [digitsVal]
  | cons d ds ih =>
    simp only [List.foldl_cons, List.length_cons, digitsVal]
    rw [ih (10 * init + d), ih (10 * 0 + d)]
    ring

lemma digitsVal_append (a b : List Nat) :
    digitsVal (a ++ b) = digitsVal a * 10 ^ b.length + digitsVal b := by
  simp only [digitsVal, List.foldl_append]
  rw [foldl_digitsVal (List.foldl (fun a d => 10 * a + d) 0 a) b]
  rfl

lemma digitsVal_replicate_zero (m : Nat) : digitsVal (List.replicate m 0) = 0 := by
  induction m with
  | zero => rfl
  | succ m ih =>
    simp only [List.replicate_succ, digitsVal, List.foldl_cons] at *
    simpa using ih

lemma digitsVal_zeros_append (m : Nat) (ds : List Nat) :
    digitsVal (List.replicate m 0 ++ ds) = digitsVal ds := by
  rw [digitsVal_append, digitsVal_replicate_zero]
  ring

lemma digitsVal_append_zeros (ds : List Nat) (m : Nat) :
    digitsVal (ds ++ List.replicate m 0) = digitsVal ds * 10 ^ m := by
  rw [digitsVal_append, digitsVal_replicate_zero, List.length_replicate]
  ring

lemma natDigitsAux_mem_lt {fuel n : Nat} (hf : n < fuel) :
    ∀ d ∈ natDigitsAux fuel n, d < 10 := by
  induction fuel generalizing n with
  | zero => omega
  | succ fuel ih =>
    intro d hd
    rw [natDigitsAux] at hd
    by_cases h : n < 10
    · simp [h] at hd; omega
    · simp only [if_neg h, List.mem_append, List.mem_singleton] at hd
      rcases hd with hd | hd
      · exact ih (by omega) d hd
      · subst hd; exact Nat.mod_lt _ (by norm_num)

lemma natDigitsAux_val {fuel n : Nat} (hf : n < fuel) :
    digitsVal (natDigitsAux fuel n) = n := by
  induction fuel generalizing n with
  | zero => omega
  | succ fuel ih =>
    rw [natDigitsAux]
    by_cases h : n < 10
    · simp [h, digitsVal]
    · rw [if_neg h, digitsVal_append, ih (by omega)]
      simp [digitsVal]
      omega

lemma natDigitsAux_ne_nil {fuel n : Nat} (hf : n < fuel) :
    natDigitsAux fuel n ≠ [] := by
  cases fuel with
  | zero => omega
  | succ fuel =>
    rw [natDigitsAux]
    by_cases h : n < 10
    · simp [h]
    · simp [h]

lemma natDigits_mem_lt (n : Nat) : ∀ d ∈ natDigits n, d < 10 :=
  natDigitsAux_mem_lt (Nat.lt_succ_self n)

lemma natDigits_val (n : Nat) : digitsVal (natDigits n) = n :=
  natDigitsAux_val (Nat.lt_succ_self n)

lemma natDigits_ne_nil (n : Nat) : natDigits n ≠ [] :=
  natDigitsAux_ne_nil (Nat.lt_succ_self n)

lemma readDigits_of_digits (ds : List Nat) (hd : ∀ d ∈ ds, d < 10) (rest : List Char)
    (hrest : headNotDigit rest) : readDigits (digitsToChars ds ++ rest) = (ds, rest) := by
  induction ds with
  | nil =>
    cases rest with
    | nil => rfl
    | cons c cs =>
      simp only [digitsToChars, List.map_nil, List.nil_append, readDigits]
      rw [if_neg]
      simp [headNotDigit] at hrest
      simp [hrest]
  | cons d ds ih =>
    have h10 : d < 10 := hd d (List.mem_cons_self d ds)
    simp only [digitsToChars, List.map_cons, List.cons_append, readDigits,
      digitChar_isDigit h10, if_true, List.append_eq]
    rw [show digitsToChars ds = List.map digitChar ds from rfl] at ih
    rw [ih (fun x hx => hd x (List.mem_cons_of_mem d hx))]
    simp [digitChar_toNat h10]

lemma headNotDigit_decExpPart (delta : Int) : headNotDigit (decExpPart delta) := by
  rw [decExpPart]
  by_cases h : delta = 0
  · simp [h, headNotDigit]
  · rw [if_neg h]
    simp [headNotDigit]

lemma readFrac_decExpPart (delta : Int) : readFrac (decExpPart delta) = ([], decExpPart delta) := by
  rw [decExpPart]
  by_cases h : delta = 0
  · simp [h, readFrac]
  · rw [if_neg h, readFrac]
    simp

lemma readExp_decExpPart (delta : Int) : readExp (decExpPart delta) = some (delta, []) := by
  rw [decExpPart]
  by_cases h : delta = 0
  · simp [h, readExp]
  · rw [if_neg h, readExp, if_pos rfl]
    by_cases hpos : 0 ≤ delta
    · rw [if_pos hpos]
      have : readExpSign ('+' :: natToChars delta.toNat) = (false, natToChars delta.toNat) := by
        rw [readExpSign, if_neg (by decide), if_pos rfl]
      rw [this]
      have hrd : readDigits (natToChars delta.toNat) = (natDigits delta.toNat, []) := by
        have := readDigits_of_digits (natDigits delta.toNat) (natDigits_mem_lt _) []
          (by trivial)
        simpa [natToChars] using this
      simp only [hrd]
      rw [if_neg (by simp [natDigits_ne_nil])]
      simp [natDigits_val, Int.toNat_of_nonneg hpos]
    · rw [if_neg hpos]
      have : readExpSign ('-' :: natToChars (-delta).toNat) = (true, natToChars (-delta).toNat) := by
        rw [readExpSign, if_pos rfl]
      rw [this]
      have hrd : readDigits (natToChars (-delta).toNat) = (natDigits (-delta).toNat, []) := by
        have := readDigits_of_digits (natDigits (-delta).toNat) (natDigits_mem_lt _) []
          (by trivial)
        simpa [natToChars] using this
      simp only [hrd]
      rw [if_neg (by simp [natDigits_ne_nil])]
      have : ((-delta).toNat : Int) = -delta := Int.toNat_of_nonneg (by omega)
      simp [natDigits_val, this]

lemma headNotDigit_cons {c : Char} {cs : List Char} (h : c.isDigit = false) :
    headNotDigit (c :: cs) := h

lemma readFrac_dot (cs : List Char) : readFrac ('.' :: cs) = readDigits cs := by
  rw [readFrac, if_pos rfl]

lemma parseUnsigned_canonical (ip fp : List Nat) (delta : Int)
    (hipne : ip ≠ []) (hip : ∀ d ∈ ip, d < 10) (hfp : ∀ d ∈ fp, d < 10) :
    parseUnsigned (digitsToChars ip ++ ('.' :: (digitsToChars fp ++ decExpPart delta))) =
      some ((digitsVal (ip ++ fp) : ℚ) * (10 : ℚ) ^ (delta - (fp.length : Int))) := by
  have h1 : readDigits (digitsToChars ip ++
      ('.' :: (digitsToChars fp ++ decExpPart delta))) =
      (ip, '.' :: (digitsToChars fp ++ decExpPart delta)) :=
    readDigits_of_digits ip hip _ (headNotDigit_cons (by decide))
  have h2 : readDigits (digitsToChars fp ++ decExpPart delta) = (fp, decExpPart delta) :=
    readDigits_of_digits fp hfp _ (headNotDigit_decExpPart delta)
  simp only [parseUnsigned, h1, readFrac_dot, h2, readExp_decExpPart,
    List.isEmpty_eq_true, hipne, if_false, List.isEmpty_nil, if_true]

lemma parseUnsigned_canonical_nofrac (ip : List Nat) (delta : Int)
    (hipne : ip ≠ []) (hip : ∀ d ∈ ip, d < 10) :
    parseUnsigned (digitsToChars ip ++ decExpPart delta) =
      some ((digitsVal ip : ℚ) * (10 : ℚ) ^ delta) := by
  have h1 : readDigits (digitsToChars ip ++ decExpPart delta) = (ip, decExpPart delta) :=
    readDigits_of_digits ip hip _ (headNotDigit_decExpPart delta)
  simp only [parseUnsigned, h1, readFrac_decExpPart, readExp_decExpPart,
    List.isEmpty_eq_true, List.isEmpty_nil, if_true]
  simp [hipne]

lemma parseUnsigned_decimal (x : PyDecimal) (hne : x.digits ≠ [])
    (hd : ∀ d ∈ x.digits, d < 10) :
    parseUnsigned (decBody x.digits (dotplaceOf x) ++
        decExpPart (leftdigitsOf x - dotplaceOf x)) =
      some ((digitsVal x.digits : ℚ) * (10 : ℚ) ^ x.exp) := by
  have hq : (10 : ℚ) ≠ 0 := by norm_num
  have hL : leftdigitsOf x = x.exp + (x.digits.length : Int) := rfl
  rw [decBody]
  by_cases h1 : dotplaceOf x ≤ 0
  · rw [if_pos h1]
    have hshape :
        ('0' :: '.' :: (List.replicate (-dotplaceOf x).toNat '0' ++ digitsToChars x.digits)) ++
          decExpPart (leftdigitsOf x - dotplaceOf x) =
        digitsToChars [0] ++ ('.' ::
          (digitsToChars (List.replicate (-dotplaceOf x).toNat 0 ++ x.digits) ++
            decExpPart (leftdigitsOf x - dotplaceOf x))) := by
      simp [digitsToChars, digitChar_zero, List.map_replicate, List.map_append]
    rw [hshape,
      parseUnsigned_canonical [0] (List.replicate (-dotplaceOf x).toNat 0 ++ x.digits)
        (leftdigitsOf x - dotplaceOf x) (by simp) (by simp)
        (by
          intro d hdm
          rcases List.mem_append.mp hdm with hm | hm
          · have := List.eq_of_mem_replicate hm
            omega
          · exact hd d hm)]
    have hE : leftdigitsOf x - dotplaceOf x -
        (((List.replicate (-dotplaceOf x).toNat 0 ++ x.digits).length : Nat) : Int) = x.exp := by
      simp only [List.length_append, List.length_replicate]
      push_cast
      omega
    rw [hE]
    congr 1
    rw [digitsVal_append, digitsVal_zeros_append]
    norm_num [show digitsVal [0] = 0 from rfl]
  · rw [if_neg h1]
    by_cases h2 : dotplaceOf x ≥ ((x.digits.length : Nat) : Int)
    · rw [if_pos h2]
      have hshape :
          (digitsToChars x.digits ++
            List.replicate (dotplaceOf x - (x.digits.length : Nat)).toNat '0') ++
            decExpPart (leftdigitsOf x - dotplaceOf x) =
          digitsToChars (x.digits ++
            List.replicate (dotplaceOf x - (x.digits.length : Nat)).toNat 0) ++
            decExpPart (leftdigitsOf x - dotplaceOf x) := by
        simp [digitsToChars, List.map_append, List.map_replicate, digitChar_zero]
      rw [hshape,
        parseUnsigned_canonical_nofrac
          (x.digits ++ List.replicate (dotplaceOf x - (x.digits.length : Nat)).toNat 0)
          (leftdigitsOf x - dotplaceOf x)
          (by simp [hne])
          (by
            intro d hdm
            rcases List.mem_append.mp hdm with hm | hm
            · exact hd d hm
            · have := List.eq_of_mem_replicate hm
              omega)]
      congr 1
      rw [digitsVal_append_zeros]
      push_cast
      rw [mul_assoc, ← zpow_natCast (10 : ℚ) (dotplaceOf x - (x.digits.length : Nat)).toNat,
        ← zpow_add₀ hq]
      have hE : ((dotplaceOf x - ((x.digits.length : Nat) : Int)).toNat : Int) +
          (leftdigitsOf x - dotplaceOf x) = x.exp := by omega
      rw [hE]
    · rw [if_neg h2]
      have hshape :
          (digitsToChars (x.digits.take (dotplaceOf x).toNat) ++
            '.' :: digitsToChars (x.digits.drop (dotplaceOf x).toNat)) ++
            decExpPart (leftdigitsOf x - dotplaceOf x) =
          digitsToChars (x.digits.take (dotplaceOf x).toNat) ++
            ('.' :: (digitsToChars (x.digits.drop (dotplaceOf x).toNat) ++
              decExpPart (leftdigitsOf x - dotplaceOf x))) := by
        simp [List.append_assoc]
      rw [hshape,
        parseUnsigned_canonical (x.digits.take (dotplaceOf x).toNat)
          (x.digits.drop (dotplaceOf x).toNat) (leftdigitsOf x - dotplaceOf x)
          (by
            intro habs
            rw [List.take_eq_nil_iff] at habs
            rcases habs with h | h
            · omega
            · exact hne h)
          (fun d hdm => hd d (List.take_subset _ _ hdm))
          (fun d hdm => hd d (List.drop_subset _ _ hdm))]
      have hE : leftdigitsOf x - dotplaceOf x -
          (((x.digits.drop (dotplaceOf x).toNat).length : Nat) : Int) = x.exp := by
        simp only [List.length_drop]
        omega
      rw [hE, List.take_append_drop]

lemma decBody_head (ds : List Nat) (dotplace : Int) (hne : ds ≠ [])
    (hd : ∀ d ∈ ds, d < 10) :
    ∃ d rest, decBody ds dotplace = digitChar d :: rest ∧ d < 10 := by
  rw [decBody]
  by_cases h1 : dotplace ≤ 0
  · rw [if_pos h1]
    exact ⟨0, _, by rw [digitChar_zero], by norm_num⟩
  · cases ds with
    | nil => exact absurd rfl hne
    | cons d0 tl =>
      have hd0 : d0 < 10 := hd d0 (List.mem_cons_self _ _)
      rw [if_neg h1]
      by_cases h2 : dotplace ≥ (((d0 :: tl).length : Nat) : Int)
      · rw [if_pos h2]
        refine ⟨d0, digitsToChars tl ++
          List.replicate (dotplace - (((d0 :: tl).length : Nat) : Int)).toNat '0', ?_, hd0⟩
        simp [digitsToChars]
      · rw [if_neg h2]
        have hk : dotplace.toNat = dotplace.toNat - 1 + 1 := by omega
        refine ⟨d0, digitsToChars (tl.take (dotplace.toNat - 1)) ++
          '.' :: digitsToChars ((d0 :: tl).drop dotplace.toNat), ?_, hd0⟩
        rw [hk, List.take_succ_cons]
        simp [digitsToChars]

lemma parseNumber_decChars (x : PyDecimal) (hne : x.digits ≠ [])
    (hd : ∀ d ∈ x.digits, d < 10) :
    parseNumber (decChars x) = some (decVal x) := by
  obtain ⟨d, rest, hhead, hd10⟩ := decBody_head x.digits (dotplaceOf x) hne hd
  rw [decChars]
  cases hs : x.sign with
  | true =>
    rw [if_pos rfl, List.append_assoc, List.singleton_append, parseNumber, if_pos rfl,
      parseUnsigned_decimal x hne hd]
    simp only [Option.map_some', decVal, hs, cond_true]
    congr 1
    ring
  | false =>
    rw [if_neg (by simp), List.nil_append, hhead, List.cons_append, parseNumber,
      if_neg (digitChar_ne_dash hd10), ← List.cons_append, ← hhead,
      parseUnsigned_decimal x hne hd]
    simp only [decVal, hs, cond_false, one_mul]

lemma parseNumStr_decStr (x : PyDecimal) (hne : x.digits ≠ [])
    (hd : ∀ d ∈ x.digits, d < 10) :
    parseNumStr (decStr x) = some (decVal x) :=
  parseNumber_decChars x hne hd

lemma scanBody_pair (c c2 : Char) (rest : List Char) :
    scanBody (c :: c2 :: rest) =
      if c = '\\' then scanBody rest
      else if c = '\'' then false
      else scanBody (c2 :: rest) := rfl

lemma isClosedLiteral_cons (c : Char) (rest : List Char) :
    isClosedLiteral (c :: rest) =
      if c = '\'' then scanBody rest
      else (c :: rest).all (fun x => !(x == '\'')) := rfl

lemma quotesEscaped_cons (prev : Option Char) (c : Char) (rest : List Char) :
    quotesEscaped prev (c :: rest) =
      if c = '\'' then (prev == some '\\') && quotesEscaped (some c) rest
      else quotesEscaped (some c) rest := rfl

lemma safeChars_nil : SafeChars [] := by
  intro c hc
  exact absurd hc (List.not_mem_nil c)

lemma safeChars_cons {c0 : Char} {cs : List Char} (h0 : c0 ≠ '\'' ∧ c0 ≠ '\\')
    (h : SafeChars cs) : SafeChars (c0 :: cs) := by
  intro c hc
  rcases List.mem_cons.mp hc with rfl | hc
  · exact h0
  · exact h c hc

lemma safeChars_append {xs ys : List Char} (hx : SafeChars xs) (hy : SafeChars ys) :
    SafeChars (xs ++ ys) := by
  intro c hc
  rcases List.mem_append.mp hc with h | h
  · exact hx c h
  · exact hy c h

lemma safeChars_replicate_zero (m : Nat) : SafeChars (List.replicate m '0') := by
  intro c hc
  rw [List.eq_of_mem_replicate hc]
  exact ⟨by decide, by decide⟩

lemma safeChars_digitsToChars {ds : List Nat} (hd : ∀ d ∈ ds, d < 10) :
    SafeChars (digitsToChars ds) := by
  intro c hc
  obtain ⟨d, hdm, rfl⟩ := List.mem_map.mp hc
  exact ⟨digitChar_ne_quote (hd d hdm), digitChar_ne_backslash (hd d hdm)⟩

lemma safeChars_natToChars (n : Nat) : SafeChars (natToChars n) :=
  safeChars_digitsToChars (natDigits_mem_lt n)

lemma safeChars_padChars (w n : Nat) : SafeChars (padChars w n) :=
  safeChars_append (safeChars_replicate_zero _) (safeChars_natToChars n)

lemma safeChars_isoDateChars (d : PyDate) : SafeChars (isoDateChars d) :=
  safeChars_append (safeChars_padChars 4 d.year)
    (safeChars_cons ⟨by decide, by decide⟩
      (safeChars_append (safeChars_padChars 2 d.month)
        (safeChars_cons ⟨by decide, by decide⟩ (safeChars_padChars 2 d.day))))

lemma safeChars_isoDateTimeChars (sep : Char) (hsep : sep ≠ '\'' ∧ sep ≠ '\\')
    (d : PyDateTime) : SafeChars (isoDateTimeChars sep d) := by
  have hmicro : SafeChars (if d.microsecond = 0 then []
      else '.' :: padChars 6 d.microsecond) := by
    by_cases hm : d.microsecond = 0
    · rw [if_pos hm]
      exact safeChars_nil
    · rw [if_neg hm]
      exact safeChars_cons ⟨by decide, by decide⟩ (safeChars_padChars 6 d.microsecond)
  exact safeChars_append (safeChars_isoDateChars _)
    (safeChars_cons hsep
      (safeChars_append (safeChars_padChars 2 d.hour)
        (safeChars_cons ⟨by decide, by decide⟩
          (safeChars_append (safeChars_padChars 2 d.minute)
            (safeChars_cons ⟨by decide, by decide⟩
              (safeChars_append (safeChars_padChars 2 d.second) hmicro))))))

lemma safeChars_pyIntChars (n : Int) : SafeChars (pyIntChars n) := by
  rw [pyIntChars]
  by_cases hn : n < 0
  · rw [if_pos hn]
    exact safeChars_cons ⟨by decide, by decide⟩ (safeChars_natToChars _)
  · rw [if_neg hn]
    exact safeChars_natToChars _

lemma safeChars_decExpPart (delta : Int) : SafeChars (decExpPart delta) := by
  rw [decExpPart]
  by_cases h0 : delta = 0
  · rw [if_pos h0]
    exact safeChars_nil
  · rw [if_neg h0]
    refine safeChars_cons ⟨by decide, by decide⟩ ?_
    by_cases hp : 0 ≤ delta
    · rw [if_pos hp]
      exact safeChars_cons ⟨by decide, by decide⟩ (safeChars_natToChars _)
    · rw [if_neg hp]
      exact safeChars_cons ⟨by decide, by decide⟩ (safeChars_natToChars _)

lemma safeChars_decBody {ds : List Nat} (dotplace : Int) (hd : ∀ d ∈ ds, d < 10) :
    SafeChars (decBody ds dotplace) := by
  rw [decBody]
  by_cases h1 : dotplace ≤ 0
  · rw [if_pos h1]
    exact safeChars_cons ⟨by decide, by decide⟩
      (safeChars_cons ⟨by decide, by decide⟩
        (safeChars_append (safeChars_replicate_zero _) (safeChars_digitsToChars hd)))
  · rw [if_neg h1]
    by_cases h2 : dotplace ≥ ((ds.length : Nat) : Int)
    · rw [if_pos h2]
      exact safeChars_append (safeChars_digitsToChars hd) (safeChars_replicate_zero _)
    · rw [if_neg h2]
      exact safeChars_append
        (safeChars_digitsToChars (fun d hdm => hd d (List.take_subset _ _ hdm)))
        (safeChars_cons ⟨by decide, by decide⟩
          (safeChars_digitsToChars (fun d hdm => hd d (List.drop_subset _ _ hdm))))

lemma safeChars_decChars {x : PyDecimal} (hd : ∀ d ∈ x.digits, d < 10) :
    SafeChars (decChars x) := by
  rw [decChars]
  refine safeChars_append (safeChars_append ?_ (safeChars_decBody _ hd))
    (safeChars_decExpPart _)
  by_cases hs : x.sign
  · rw [if_pos hs]
    exact safeChars_cons ⟨by decide, by decide⟩ safeChars_nil
  · rw [if_neg hs]
    exact safeChars_nil

lemma scanBody_cons_safe (c : Char) (hc1 : c ≠ '\\') (hc2 : c ≠ '\'')
    (cs : List Char) (hcs : scanBody cs = true) : scanBody (c :: cs) = true := by
  cases cs with
  | nil => exact absurd hcs (by decide)
  | cons y ys =>
    rw [scanBody_pair, if_neg hc1, if_neg hc2]
    exact hcs

lemma scanBody_safe_closing (cs : List Char) (h : SafeChars cs) :
    scanBody (cs ++ ['\'']) = true := by
  induction cs with
  | nil => rfl
  | cons c rest ih =>
    have hc := h c (List.mem_cons_self _ _)
    have ih2 := ih (fun x hx => h x (List.mem_cons_of_mem _ hx))
    rw [List.cons_append]
    exact scanBody_cons_safe c hc.2 hc.1 _ ih2

lemma scanBody_escQuotes (cs : List Char) (h : ∀ c ∈ cs, c ≠ '\\') :
    scanBody (escQuotes cs ++ ['\'']) = true := by
  induction cs with
  | nil => rfl
  | cons c rest ih =>
    have hc := h c (List.mem_cons_self _ _)
    have ih2 := ih (fun x hx => h x (List.mem_cons_of_mem _ hx))
    rw [escQuotes]
    by_cases hq : c = '\''
    · rw [if_pos hq, List.cons_append, List.cons_append, scanBody_pair, if_pos rfl]
      exact ih2
    · rw [if_neg hq, List.cons_append]
      exact scanBody_cons_safe c hc hq _ ih2

lemma isClosedLiteral_of_noQuote (cs : List Char) (h : ∀ c ∈ cs, c ≠ '\'') :
    isClosedLiteral cs = true := by
  cases cs with
  | nil => rfl
  | cons c rest =>
    rw [isClosedLiteral_cons, if_neg (h c (List.mem_cons_self _ _))]
    simp only [List.all_eq_true, Bool.not_eq_eq_eq_not, Bool.not_true, beq_eq_false_iff_ne]
    exact h

lemma isClosedLiteral_quoted (body : List Char) :
    isClosedLiteral ('\'' :: (body ++ ['\''])) = scanBody (body ++ ['\'']) := by
  rw [isClosedLiteral_cons, if_pos rfl]

lemma quotesEscaped_escQuotes (cs : List Char) :
    ∀ prev, quotesEscaped prev (escQuotes cs) = true := by
  induction cs with
  | nil => intro prev; rfl
  | cons c rest ih =>
    intro prev
    rw [escQuotes]
    by_cases hq : c = '\''
    · rw [if_pos hq, quotesEscaped_cons, if_neg (by decide), quotesEscaped_cons, if_pos rfl]
      simpa using ih (some '\'')
    · rw [if_neg hq, quotesEscaped_cons, if_neg hq]
      exact ih (some c)

lemma nodeLoadTable_ops_node (t : Table) :
    ∀ op ∈ (nodeLoadTable t).1, isNodeOp op = true := by
  intro op hop
  rw [nodeLoadTable] at hop
  by_cases h : (pk_cols t).length ≠ 1
  · rw [if_pos h] at hop
    exact absurd hop (List.not_mem_nil op)
  · rw [if_neg h] at hop
    rcases List.mem_cons.mp hop with rfl | hop
    · rfl
    · obtain ⟨row, _, rfl⟩ := List.mem_map.mp hop
      rfl

lemma nodeLoad_ops_node (ts : List Table) :
    ∀ op ∈ (nodeLoad ts).1, isNodeOp op = true := by
  induction ts with
  | nil => intro op hop; exact absurd hop (List.not_mem_nil op)
  | cons t rest ih =>
    intro op hop
    rw [nodeLoad] at hop
    rcases List.mem_append.mp hop with h | h
    · exact nodeLoadTable_ops_node t op h
    · exact ih op h

lemma edgeLoadFK_ops_edge (t : Table) (fk : FKInfo) (ops : List Op)
    (h : edgeLoadFK t fk = .ok ops) : ∀ op ∈ ops, isEdgeOp op = true := by
  intro op hop
  rw [edgeLoadFK] at h
  rcases hcc : fk.constrained_columns with _ | ⟨fkc, ccrest⟩ <;> rw [hcc] at h <;>
    dsimp only at h
  · exact absurd h (by simp)
  rcases hci : colIndex t fkc with _ | i <;> rw [hci] at h <;> dsimp only at h
  · exact absurd h (by simp)
  rcases hrc : fk.referred_columns with _ | ⟨rpk, rcrest⟩ <;> rw [hrc] at h <;>
    dsimp only at h
  · exact absurd h (by simp)
  rcases hpk : pk_cols t with _ | ⟨cpk, pkrest⟩ <;> rw [hpk] at h <;> dsimp only at h
  · exact absurd h (by simp)
  rcases hcj : colIndex t cpk with _ | j <;> rw [hcj] at h <;> dsimp only at h
  · exact absurd h (by simp)
  by_cases hemp : (fetch_pairs t i j).isEmpty
  · rw [if_pos hemp] at h
    cases h
    exact absurd hop (List.not_mem_nil op)
  · rw [if_neg hemp] at h
    cases h
    rcases List.mem_cons.mp hop with rfl | hop
    · rfl
    · obtain ⟨p, _, rfl⟩ := List.mem_map.mp hop
      rfl

lemma edgeLoadFKs_ops_edge (t : Table) (fks : List FKInfo) :
    ∀ op ∈ (edgeLoadFKs t fks).1, isEdgeOp op = true := by
  induction fks with
  | nil => intro op hop; exact absurd hop (List.not_mem_nil op)
  | cons fk rest ih =>
    intro op hop
    rw [edgeLoadFKs] at hop
    rcases hfk : edgeLoadFK t fk with e | ops <;> rw [hfk] at hop
    · exact absurd hop (List.not_mem_nil op)
    · rcases List.mem_append.mp hop with h | h
      · exact edgeLoadFK_ops_edge t fk ops hfk op h
      · exact ih op h

lemma edgeLoadTable_ops_edge (t : Table) :
    ∀ op ∈ (edgeLoadTable t).1, isEdgeOp op = true := by
  intro op hop
  rw [edgeLoadTable] at hop
  rcases hpk : pk_cols t with _ | ⟨cpk, pkrest⟩ <;> rw [hpk] at hop
  · exact absurd hop (List.not_mem_nil op)
  · exact edgeLoadFKs_ops_edge t t.foreign_keys op hop

lemma edgeLoad_ops_edge (ts : List Table) :
    ∀ op ∈ (edgeLoad ts).1, isEdgeOp op = true := by
  induction ts with
  | nil => intro op hop; exact absurd hop (List.not_mem_nil op)
  | cons t rest ih =>
    intro op hop
    rw [edgeLoad] at hop
    rcases ht : edgeLoadTable t with ⟨ops, err⟩
    rw [ht] at hop
    cases err with
    | none =>
      rcases List.mem_append.mp hop with h | h
      · refine edgeLoadTable_ops_edge t op ?_
        rw [ht]
        exact h
      · exact ih op h
    | some e =>
      refine edgeLoadTable_ops_edge t op ?_
      rw [ht]
      exact hop

lemma edgeLoad_isSome_of_table_error (ts : List Table) (t : Table) (hmem : t ∈ ts)
    (herr : (edgeLoadTable t).2.isSome = true) : (edgeLoad ts).2.isSome = true := by
  induction ts with
  | nil => exact absurd hmem (List.not_mem_nil t)
  | cons a rest ih =>
    rw [edgeLoad]
    rcases ha : edgeLoadTable a with ⟨ops, err⟩
    cases err with
    | none =>
      rcases List.mem_cons.mp hmem with rfl | hmem2
      · rw [ha] at herr
        exact absurd herr (by simp)
      · simpa using ih hmem2
    | some e => simp

lemma edgeLoadFK_eval (t : Table) (fk : FKInfo) (fkc rpk cpk : String)
    (ccrest rcrest pkrest : List String) (i j : Nat)
    (h1 : fk.constrained_columns = fkc :: ccrest)
    (h2 : colIndex t fkc = some i)
    (h3 : fk.referred_columns = rpk :: rcrest)
    (h4 : pk_cols t = cpk :: pkrest)
    (h5 : colIndex t cpk = some j) :
    edgeLoadFK t fk =
      if (fetch_pairs t i j).isEmpty then .ok []
      else .ok (Op.createRelTable (fk.referred_table ++ "_" ++ t.name ++ "_edge")
            fk.referred_table t.name ::
          (fetch_pairs t i j).map (fun p =>
            Op.createRel fk.referred_table t.name rpk cpk
              (format_val p.1) (format_val p.2)
              (fk.referred_table ++ "_" ++ t.name ++ "_edge"))) := by
  rw [edgeLoadFK, h1]
  dsimp only
  rw [h2]
  dsimp only
  rw [h3]
  dsimp only
  rw [h4]
  dsimp only
  rw [h5]

/-! ## Claims -/

/-- C1 (counterexample): the claim says floating/decimal-family declared
types map to DOUBLE and date/time-family types map to TIMESTAMP, but
`infer_type` tests `isinstance(col.type, Float)` — which NUMERIC/DECIMAL
does not satisfy in SQLAlchemy — and `isinstance(col.type, DateTime)` —
which DATE does not satisfy — so a NUMERIC/DECIMAL column maps to STRING,
not DOUBLE, and a DATE column maps to STRING, not TIMESTAMP. -/
theorem infer_type_decimal_counterexample :
    infer_type SqlType.Numeric = "STRING" ∧ infer_type SqlType.Numeric ≠ "DOUBLE" ∧
    infer_type SqlType.Date = "STRING" ∧ infer_type SqlType.Date ≠ "TIMESTAMP" := by
  decide

/-- C1 (amended): `infer_type` is total and always returns one of the four
primitive type names (spelled INT, DOUBLE, TIMESTAMP, STRING); `Integer`-family
types map to INT, `Float`-family types map to DOUBLE, `DateTime`-family types
map to TIMESTAMP, and everything else — including the arbitrary-precision
NUMERIC/DECIMAL family and DATE/TIME — maps to STRING. -/
theorem infer_type_total_and_families (t : SqlType) :
    (infer_type t = "INT" ∨ infer_type t = "DOUBLE" ∨ infer_type t = "TIMESTAMP" ∨
      infer_type t = "STRING") ∧
    (isInstanceOfInteger t = true → infer_type t = "INT") ∧
    (isInstanceOfFloat t = true → infer_type t = "DOUBLE") ∧
    (isInstanceOfDateTime t = true → infer_type t = "TIMESTAMP") ∧
    (isInstanceOfInteger t = false → isInstanceOfFloat t = false →
      isInstanceOfDateTime t = false → infer_type t = "STRING") := by
  cases t <;> decide

/-- C1 (witness): the amended theorem applied to concrete column types of
each family. -/
theorem infer_type_total_and_families_witness :
    (isInstanceOfInteger SqlType.BigInteger = true ∧
      infer_type SqlType.BigInteger = "INT") ∧
    (isInstanceOfFloat SqlType.DoublePrecision = true ∧
      infer_type SqlType.DoublePrecision = "DOUBLE") ∧
    (isInstanceOfDateTime SqlType.TIMESTAMP = true ∧
      infer_type SqlType.TIMESTAMP = "TIMESTAMP") ∧
    (isInstanceOfInteger SqlType.Numeric = false ∧
      infer_type SqlType.Numeric = "STRING") :=
  ⟨⟨by decide, (infer_type_total_and_families SqlType.BigInteger).2.1 (by decide)⟩,
   ⟨by decide, (infer_type_total_and_families SqlType.DoublePrecision).2.2.1 (by decide)⟩,
   ⟨by decide, (infer_type_total_and_families SqlType.TIMESTAMP).2.2.2.1 (by decide)⟩,
   ⟨by decide, (infer_type_total_and_families SqlType.Numeric).2.2.2.2 (by decide)
      (by decide) (by decide)⟩⟩

/-- C2: `format_val` applies its rules in the source's priority order —
an absent value serializes to the unquoted literal null; a boolean to the
unquoted literal true or false even though booleans also satisfy the numeric
`isinstance` check (which fires later); a numeric value to its unquoted
Python string form; a date or datetime to its ISO-8601 text in single
quotes; and any other value is string-converted, every single quote gets a
backslash prefixed (so every quote in the escaped text is immediately
preceded by a backslash), and the result is wrapped in single quotes. -/
theorem format_val_priority_order (v : Value) :
    format_val v = (match v with
      | Value.none => "null"
      | Value.bool b => cond b "true" "false"
      | Value.int n => ⟨pyIntChars n⟩
      | Value.float t => t
      | Value.decimal x => decStr x
      | Value.date d => ⟨'\'' :: (isoDateChars d ++ ['\''])⟩
      | Value.datetime d => ⟨'\'' :: (isoDateTimeChars 'T' d ++ ['\''])⟩
      | Value.str s => ⟨'\'' :: (escQuotes s.data ++ ['\''])⟩) ∧
    is_number (Value.bool true) = true ∧ is_number (Value.bool false) = true ∧
    (∀ cs : List Char, quotesEscaped Option.none (escQuotes cs) = true) := by
  refine ⟨?_, rfl, rfl, fun cs => quotesEscaped_escQuotes cs Option.none⟩
  cases v <;> rfl

/-- C3 (counterexample): the claim says an arbitrary-precision decimal must
serialize without scientific notation, giving Decimal 1E+2 as the example;
but `format_val` serializes it with `str()`, whose output for CPython's
`Decimal("1E+2")` is the text "1E+2" — it contains an exponent marker. -/
theorem decimal_scientific_notation_counterexample :
    format_val (Value.decimal ⟨false, [1], 2⟩) = "1E+2" ∧
    'E' ∈ (format_val (Value.decimal ⟨false, [1], 2⟩)).data := by
  decide

/-- C3 (amended): `format_val` renders an arbitrary-precision decimal via
CPython's exact `Decimal.__str__` — no precision is lost and re-parsing the
serialized text yields a value equal to the original — but the text may use
scientific notation (e.g. Decimal 1E+2 serializes as "1E+2"). -/
theorem format_val_decimal_roundtrip (x : PyDecimal) (hwf : x.wf) :
    parseNumStr (format_val (Value.decimal x)) = some (decVal x) :=
  parseNumStr_decStr x hwf.1 hwf.2

/-- C3 (witness): the round-trip theorem applied to the concrete decimal
19.99. -/
theorem format_val_decimal_roundtrip_witness :
    PyDecimal.wf ⟨false, [1, 9, 9, 9], -2⟩ ∧
    parseNumStr (format_val (Value.decimal ⟨false, [1, 9, 9, 9], -2⟩)) =
      some (decVal ⟨false, [1, 9, 9, 9], -2⟩) :=
  ⟨⟨by decide, by decide⟩,
   format_val_decimal_roundtrip ⟨false, [1, 9, 9, 9], -2⟩ ⟨by decide, by decide⟩⟩

/-- C4 (counterexample): the claim says every input — including strings
containing backslashes — serializes to a syntactically closed literal; but
the single-pass quote escape never escapes backslashes, so the one-character
string backslash serializes to the three characters quote backslash quote,
in which the backslash escapes the closing quote: the literal never closes.
A backslash before an original quote likewise makes the literal close early
with dangling text. -/
theorem format_val_backslash_counterexample :
    format_val (Value.str "\\") = "'\\'" ∧
    isClosedLiteral (format_val (Value.str "\\")).data = false ∧
    isClosedLiteral (format_val (Value.str "a\\'b")).data = false := by
  decide

/-- C4 (amended): for every value whose Python string form is free of
backslashes (and whose raw float text is quote-free), the serialized text is
a syntactically closed literal — quoted branches close exactly at the end
with every embedded quote escaped, unquoted branches contain no quote at
all.  Values whose string form contains a backslash can break closedness,
as the counterexample shows. -/
theorem format_val_closed_literal (v : Value) (hs : safeValue v = true) :
    isClosedLiteral (format_val v).data = true := by
  cases v with
  | none => decide
  | bool b => cases b <;> decide
  | int n =>
    refine isClosedLiteral_of_noQuote (pyIntChars n) ?_
    intro c hc
    exact (safeChars_pyIntChars n c hc).1
  | float t =>
    refine isClosedLiteral_of_noQuote t.data ?_
    intro c hc
    have := List.all_eq_true.mp hs c hc
    simp only [Bool.and_eq_true, Bool.not_eq_eq_eq_not, Bool.not_true,
      beq_eq_false_iff_ne] at this
    exact this.1
  | decimal x =>
    have hd : ∀ d ∈ x.digits, d < 10 := by
      intro d hdm
      have := List.all_eq_true.mp hs d hdm
      exact of_decide_eq_true this
    refine isClosedLiteral_of_noQuote (decChars x) ?_
    intro c hc
    exact (safeChars_decChars hd c hc).1
  | date d =>
    show isClosedLiteral ('\'' :: (isoDateChars d ++ ['\''])) = true
    rw [isClosedLiteral_quoted]
    exact scanBody_safe_closing _ (safeChars_isoDateChars d)
  | datetime d =>
    show isClosedLiteral ('\'' :: (isoDateTimeChars 'T' d ++ ['\''])) = true
    rw [isClosedLiteral_quoted]
    exact scanBody_safe_closing _ (safeChars_isoDateTimeChars 'T' ⟨by decide, by decide⟩ d)
  | str s =>
    show isClosedLiteral ('\'' :: (escQuotes s.data ++ ['\''])) = true
    rw [isClosedLiteral_quoted]
    refine scanBody_escQuotes s.data ?_
    intro c hc
    have := List.all_eq_true.mp hs c hc
    simpa using this

/-- C4 (witness): the amended theorem applied to the string O'Brien, whose
serialization is a closed literal with the embedded quote escaped. -/
theorem format_val_closed_literal_witness :
    safeValue (Value.str "O'Brien") = true ∧
    isClosedLiteral (format_val (Value.str "O'Brien")).data = true :=
  ⟨by decide, format_val_closed_literal (Value.str "O'Brien") (by decide)⟩

/-- C5: the node loader's single-primary-key policy — a table whose
primary-key column count is not exactly one is skipped with exactly one
recorded warning and contributes no operation at all (no node-type creation,
no node insertion), and the loop just continues (the node phase has no
failure channel); a table with exactly one primary-key column produces the
node-type creation followed by exactly one node-creation operation per
fetched row whose properties pair the column names with the serialized row
values in column order. -/
theorem node_loader_single_pk_policy (t : Table) :
    ((pk_cols t).length ≠ 1 →
      (nodeLoadTable t).1 = [] ∧ (nodeLoadTable t).2 = [skipWarning t]) ∧
    ((pk_cols t).length = 1 →
      (nodeLoadTable t).2 = [] ∧
      (nodeLoadTable t).1 =
        Op.createNodeTable t.name (t.columns.map col_def) ::
          t.rows.map (fun row => Op.createNode t.name
            (List.zip (t.columns.map (fun c => c.name)) (row.map format_val))) ∧
      (nodeLoadTable t).1.length = t.rows.length + 1) := by
  constructor
  · intro h
    rw [nodeLoadTable, if_pos h]
    exact ⟨rfl, rfl⟩
  · intro h
    rw [nodeLoadTable, if_neg (by omega)]
    refine ⟨rfl, rfl, ?_⟩
    simp

/-- C5 (witness): the policy applied to a concrete two-primary-key table
(skipped with a warning, no operations) and a concrete single-primary-key
table with one row (one node-type creation plus one node insertion). -/
theorem node_loader_single_pk_policy_witness :
    ((pk_cols ⟨"t2", [⟨"a", SqlType.Integer, true⟩, ⟨"b", SqlType.Integer, true⟩],
        [], []⟩).length ≠ 1 ∧
      ((nodeLoadTable ⟨"t2", [⟨"a", SqlType.Integer, true⟩, ⟨"b", SqlType.Integer, true⟩],
          [], []⟩).1 = [] ∧
        (nodeLoadTable ⟨"t2", [⟨"a", SqlType.Integer, true⟩, ⟨"b", SqlType.Integer, true⟩],
          [], []⟩).2 =
          [skipWarning ⟨"t2", [⟨"a", SqlType.Integer, true⟩, ⟨"b", SqlType.Integer, true⟩],
            [], []⟩])) ∧
    ((pk_cols ⟨"t1", [⟨"id", SqlType.Integer, true⟩], [[Value.int 7]], []⟩).length = 1 ∧
      (nodeLoadTable ⟨"t1", [⟨"id", SqlType.Integer, true⟩],
        [[Value.int 7]], []⟩).1.length =
        (Table.mk "t1" [⟨"id", SqlType.Integer, true⟩] [[Value.int 7]] []).rows.length + 1) :=
  ⟨⟨by decide, (node_loader_single_pk_policy _).1 (by decide)⟩,
   ⟨by decide, ((node_loader_single_pk_policy _).2 (by decide)).2.2⟩⟩

/-- C6 (counterexample): parent table P has two primary-key columns, so the
node loader skips it and creates no node type named P; child table C has a
foreign key to P with one fetched pair.  The claim says the edge loader
skips that edge with a warning and creates no relationship type referencing
the never-created parent — but the run's operation sequence does contain a
relationship-type creation whose FROM side is P, and the edge phase records
no warning and no error at all. -/
theorem edge_loader_no_parent_check_counterexample :
    (nodeLoad [⟨"P", [⟨"a", SqlType.Integer, true⟩, ⟨"b", SqlType.Integer, true⟩], [], []⟩,
      ⟨"C", [⟨"id", SqlType.Integer, true⟩, ⟨"p_a", SqlType.Integer, false⟩],
        [[Value.int 1, Value.int 7]], [⟨"P", ["p_a"], ["a"]⟩]⟩]).1.any
      (createsNodeTable "P") = false ∧
    (runPipeline [⟨"P", [⟨"a", SqlType.Integer, true⟩, ⟨"b", SqlType.Integer, true⟩], [], []⟩,
      ⟨"C", [⟨"id", SqlType.Integer, true⟩, ⟨"p_a", SqlType.Integer, false⟩],
        [[Value.int 1, Value.int 7]], [⟨"P", ["p_a"], ["a"]⟩]⟩]).1.any
      (relTableFromParent "P") = true ∧
    (edgeLoad [⟨"P", [⟨"a", SqlType.Integer, true⟩, ⟨"b", SqlType.Integer, true⟩], [], []⟩,
      ⟨"C", [⟨"id", SqlType.Integer, true⟩, ⟨"p_a", SqlType.Integer, false⟩],
        [[Value.int 1, Value.int 7]], [⟨"P", ["p_a"], ["a"]⟩]⟩]).2 = Option.none := by
  decide

/-- C6 (amended): the edge loader performs no parent-was-skipped check.  For
a foreign key on a child table with at least one primary-key column, a
resolvable constrained column, and a nonempty pair set, the
relationship-type creation referencing `fk.referred_table` is issued
unconditionally — note that no hypothesis about the parent table's own shape
appears — and the edge phase records neither a warning nor an error for it
(the failure, if the parent node type does not exist, happens later inside
the graph store). -/
theorem edge_loader_no_parent_check (t : Table) (fk : FKInfo)
    (fkc rpk cpk : String) (ccrest rcrest pkrest : List String) (i j : Nat)
    (hfks : t.foreign_keys = [fk])
    (h1 : fk.constrained_columns = fkc :: ccrest)
    (h2 : colIndex t fkc = some i)
    (h3 : fk.referred_columns = rpk :: rcrest)
    (h4 : pk_cols t = cpk :: pkrest)
    (h5 : colIndex t cpk = some j)
    (hrows : t.rows ≠ []) :
    (edgeLoadTable t).2 = Option.none ∧
    (edgeLoadTable t).1.any (relTableFromParent fk.referred_table) = true := by
  have hne : ¬ (fetch_pairs t i j).isEmpty = true := by
    rw [fetch_pairs]
    simpa [List.isEmpty_iff] using hrows
  have heval := edgeLoadFK_eval t fk fkc rpk cpk ccrest rcrest pkrest i j h1 h2 h3 h4 h5
  rw [if_neg hne] at heval
  have htbl : edgeLoadTable t = edgeLoadFKs t t.foreign_keys := by
    rw [edgeLoadTable, h4]
  rw [htbl, hfks, edgeLoadFKs, heval]
  dsimp only
  constructor
  · rfl
  · simp [relTableFromParent]

/-- C6 (amended, witness): the amended theorem applied to a concrete child
table with one row and one foreign key. -/
theorem edge_loader_no_parent_check_witness :
    ((Table.mk "C" [⟨"id", SqlType.Integer, true⟩, ⟨"p_a", SqlType.Integer, false⟩]
        [[Value.int 1, Value.int 7]] [⟨"P", ["p_a"], ["a"]⟩]).foreign_keys =
      [⟨"P", ["p_a"], ["a"]⟩] ∧
      (Table.mk "C" [⟨"id", SqlType.Integer, true⟩, ⟨"p_a", SqlType.Integer, false⟩]
        [[Value.int 1, Value.int 7]] [⟨"P", ["p_a"], ["a"]⟩]).rows ≠ []) ∧
    ((edgeLoadTable ⟨"C", [⟨"id", SqlType.Integer, true⟩, ⟨"p_a", SqlType.Integer, false⟩],
        [[Value.int 1, Value.int 7]], [⟨"P", ["p_a"], ["a"]⟩]⟩).2 = Option.none ∧
      (edgeLoadTable ⟨"C", [⟨"id", SqlType.Integer, true⟩, ⟨"p_a", SqlType.Integer, false⟩],
        [[Value.int 1, Value.int 7]], [⟨"P", ["p_a"], ["a"]⟩]⟩).1.any
        (relTableFromParent "P") = true) :=
  ⟨⟨by decide, by decide⟩,
   edge_loader_no_parent_check _ ⟨"P", ["p_a"], ["a"]⟩ "p_a" "a" "id" [] [] []
     1 0 (by decide) (by decide) (by decide) (by decide) (by decide) (by decide)
     (by decide)⟩

/-- C7: a foreign key whose fetched pair set is empty produces no operation
at all — `if not pairs: continue` fires before the relationship-type
creation, so no relationship type and no relationship instance is issued for
it, and the loop continues without failure. -/
theorem edge_loader_empty_pairs_skip (t : Table) (fk : FKInfo)
    (fkc rpk cpk : String) (ccrest rcrest pkrest : List String) (i j : Nat)
    (h1 : fk.constrained_columns = fkc :: ccrest)
    (h2 : colIndex t fkc = some i)
    (h3 : fk.referred_columns = rpk :: rcrest)
    (h4 : pk_cols t = cpk :: pkrest)
    (h5 : colIndex t cpk = some j)
    (hempty : fetch_pairs t i j = []) :
    edgeLoadFK t fk = .ok [] := by
  have heval := edgeLoadFK_eval t fk fkc rpk cpk ccrest rcrest pkrest i j h1 h2 h3 h4 h5
  rw [hempty] at heval
  simpa using heval

/-- C7 (witness): the empty-pair skip applied to a concrete child table with
no rows. -/
theorem edge_loader_empty_pairs_skip_witness :
    fetch_pairs ⟨"C", [⟨"id", SqlType.Integer, true⟩, ⟨"p_a", SqlType.Integer, false⟩],
      [], [⟨"P", ["p_a"], ["a"]⟩]⟩ 1 0 = [] ∧
    edgeLoadFK ⟨"C", [⟨"id", SqlType.Integer, true⟩, ⟨"p_a", SqlType.Integer, false⟩],
      [], [⟨"P", ["p_a"], ["a"]⟩]⟩ ⟨"P", ["p_a"], ["a"]⟩ = .ok [] :=
  ⟨by decide,
   edge_loader_empty_pairs_skip _ ⟨"P", ["p_a"], ["a"]⟩ "p_a" "a" "id" [] [] [] 1 0
     (by decide) (by decide) (by decide) (by decide) (by decide) (by decide)⟩

/-- C8: a foreign key from child `t` to parent `fk.referred_table` with a
nonempty pair set produces exactly one relationship-type creation — named
parent name, then child name, then the suffix `_edge`, and directed FROM the
parent node type TO the child node type — followed by one
relationship-creation operation per pair, each matching the parent node on
the parent primary-key column against the serialized foreign-key value and
the child node on the child primary-key column against the serialized child
primary-key value. -/
theorem edge_loader_rel_type_shape (t : Table) (fk : FKInfo)
    (fkc rpk cpk : String) (ccrest rcrest pkrest : List String) (i j : Nat)
    (h1 : fk.constrained_columns = fkc :: ccrest)
    (h2 : colIndex t fkc = some i)
    (h3 : fk.referred_columns = rpk :: rcrest)
    (h4 : pk_cols t = cpk :: pkrest)
    (h5 : colIndex t cpk = some j)
    (hne : fetch_pairs t i j ≠ []) :
    edgeLoadFK t fk =
      .ok (Op.createRelTable (fk.referred_table ++ "_" ++ t.name ++ "_edge")
            fk.referred_table t.name ::
          (fetch_pairs t i j).map (fun p =>
            Op.createRel fk.referred_table t.name rpk cpk
              (format_val p.1) (format_val p.2)
              (fk.referred_table ++ "_" ++ t.name ++ "_edge"))) := by
  have heval := edgeLoadFK_eval t fk fkc rpk cpk ccrest rcrest pkrest i j h1 h2 h3 h4 h5
  rwa [if_neg (by simpa [List.isEmpty_iff] using hne)] at heval

/-- C8 (witness): the relationship-type shape applied to a concrete child
table with one row, giving the type P_C_edge directed from P to C. -/
theorem edge_loader_rel_type_shape_witness :
    fetch_pairs ⟨"C", [⟨"id", SqlType.Integer, true⟩, ⟨"p_a", SqlType.Integer, false⟩],
      [[Value.int 1, Value.int 7]], [⟨"P", ["p_a"], ["a"]⟩]⟩ 1 0 ≠ [] ∧
    edgeLoadFK ⟨"C", [⟨"id", SqlType.Integer, true⟩, ⟨"p_a", SqlType.Integer, false⟩],
      [[Value.int 1, Value.int 7]], [⟨"P", ["p_a"], ["a"]⟩]⟩ ⟨"P", ["p_a"], ["a"]⟩ =
      .ok [Op.createRelTable "P_C_edge" "P" "C",
        Op.createRel "P" "C" "a" "id" "7" "1" "P_C_edge"] :=
  ⟨by decide,
   edge_loader_rel_type_shape _ ⟨"P", ["p_a"], ["a"]⟩ "p_a" "a" "id" [] [] [] 1 0
     (by decide) (by decide) (by decide) (by decide) (by decide) (by decide)⟩

/-- C9: in every run the operation sequence splits as a prefix of node-phase
operations (node-type creations and node insertions) followed by a suffix of
edge-phase operations (relationship-type creations and relationship
insertions): every node operation precedes every edge operation, because the
edge loop only starts after the node loop has finished all tables. -/
theorem nodes_before_edges (ts : List Table) :
    ∃ nops eops, (runPipeline ts).1 = nops ++ eops ∧
      (∀ op ∈ nops, isNodeOp op = true) ∧ (∀ op ∈ eops, isEdgeOp op = true) :=
  ⟨(nodeLoad ts).1, (edgeLoad ts).1, rfl, nodeLoad_ops_node ts, edgeLoad_ops_edge ts⟩

/-- C10: the edge phase iterates over all reflected tables — not only those
the node phase accepted — and line 89 indexes `[...][0]` on the primary-key
column list before looking at any foreign key; for a reflected table with
zero primary-key columns this raises an uncaught IndexError, which aborts
the whole run, even though the node phase skipped the same table gracefully
with just a warning. -/
theorem edge_phase_zero_pk_aborts (ts : List Table) (t : Table) (hmem : t ∈ ts)
    (hpk : pk_cols t = []) :
    edgeLoadTable t = ([], some indexError) ∧
    (edgeLoad ts).2.isSome = true ∧
    (runPipeline ts).2.2.isSome = true ∧
    (nodeLoadTable t).1 = [] ∧ (nodeLoadTable t).2 = [skipWarning t] := by
  have htbl : edgeLoadTable t = ([], some indexError) := by
    rw [edgeLoadTable, hpk]
  have hload : (edgeLoad ts).2.isSome = true :=
    edgeLoad_isSome_of_table_error ts t hmem (by rw [htbl]; rfl)
  have hskip : (pk_cols t).length ≠ 1 := by
    rw [hpk]
    decide
  refine ⟨htbl, hload, hload, ?_, ?_⟩
  · rw [nodeLoadTable, if_pos hskip]
  · rw [nodeLoadTable, if_pos hskip]

/-- C10 (witness): the abort applied to a run whose only reflected table has
no primary-key column. -/
theorem edge_phase_zero_pk_aborts_witness :
    ((Table.mk "nopk" [⟨"a", SqlType.Integer, false⟩] [] [] ∈
        [Table.mk "nopk" [⟨"a", SqlType.Integer, false⟩] [] []]) ∧
      pk_cols ⟨"nopk", [⟨"a", SqlType.Integer, false⟩], [], []⟩ = []) ∧
    (edgeLoadTable ⟨"nopk", [⟨"a", SqlType.Integer, false⟩], [], []⟩ =
        ([], some indexError) ∧
      (edgeLoad [⟨"nopk", [⟨"a", SqlType.Integer, false⟩], [], []⟩]).2.isSome = true ∧
      (runPipeline [⟨"nopk", [⟨"a", SqlType.Integer, false⟩], [], []⟩]).2.2.isSome = true ∧
      (nodeLoadTable ⟨"nopk", [⟨"a", SqlType.Integer, false⟩], [], []⟩).1 = [] ∧
      (nodeLoadTable ⟨"nopk", [⟨"a", SqlType.Integer, false⟩], [], []⟩).2 =
        [skipWarning ⟨"nopk", [⟨"a", SqlType.Integer, false⟩], [], []⟩]) :=
  ⟨⟨by decide, by decide⟩,
   edge_phase_zero_pk_aborts [⟨"nopk", [⟨"a", SqlType.Integer, false⟩], [], []⟩]
     ⟨"nopk", [⟨"a", SqlType.Integer, false⟩], [], []⟩ (by decide) (by decide)⟩
